import Mathlib

/-!
Verification of the Todo CRUD core of `tanstack-start-todo`.

The embedding models the `todos` SQLite table (`src/db/schema.ts`) as a list
of rows plus the AUTOINCREMENT next-id counter, and the six server functions
of `src/server/todo.ts` (`getTodos`, `createTodo`, `updateTodo`, `toggleTodo`,
`deleteTodo`, `deleteCompletedTodos`) as pure state-passing functions.
Timestamps (`created_at` / `updated_at`, ISO-8601 strings produced by
`new Date().toISOString()`) are modelled as natural numbers ordered like the
wall clock; each operation that stamps a time takes the current time `now`
as an explicit argument.
-/

namespace TodoApp

/-- A row of the `todos` table (`src/db/schema.ts`): integer primary key,
non-null title, completed flag defaulting to false, and the two
timestamp columns. -/
structure Todo where
  id : Nat
  title : String
  completed : Bool
  createdAt : Nat
  updatedAt : Nat
  deriving Repr, DecidableEq

/-- The database state: the rows of the `todos` table in rowid order, plus
the AUTOINCREMENT counter (ids are assigned increasing and never reused). -/
structure Store where
  rows : List Todo
  nextId : Nat
  deriving Repr, DecidableEq

/-- A freshly created database: no rows, first id to be assigned is 1. -/
def emptyStore : Store := ⟨[], 1⟩

/-- The title constraint stated by the validation schema
(`z.string().min(1).max(200)` over the trimmed title). -/
def validTitle (t : String) : Prop :=
  1 ≤ t.trim.length ∧ t.trim.length ≤ 200

/-- The id constraint of `idSchema` / `updateTodoSchema`
(`z.number().int().positive()`). -/
def validId (i : Nat) : Prop := 0 < i

instance (i : Nat) : Decidable (validId i) := Nat.decLt 0 i

instance (t : String) : Decidable (validTitle t) := by
  unfold validTitle
  infer_instance

/-- `getTodos`: `SELECT * FROM todos ORDER BY created_at DESC`
(`src/server/todo.ts` lines 67-74). -/
def getTodos (st : Store) : List Todo :=
  st.rows.mergeSort (fun a b => b.createdAt ≤ a.createdAt)

/-- `createTodo` (`src/server/todo.ts` lines 87-103):
`INSERT INTO todos (title) VALUES (?) RETURNING *`.
The schema defaults fill in `completed = false` and
`created_at = updated_at = now`; AUTOINCREMENT assigns the next id.
The input validator of the source is the identity function
`(input: { title: string }) => input`, so no title validation happens here. -/
def createTodo (st : Store) (title : String) (now : Nat) : Todo × Store :=
  let newTodo : Todo :=
    { id := st.nextId, title := title, completed := false,
      createdAt := now, updatedAt := now }
  (newTodo, { rows := st.rows ++ [newTodo], nextId := st.nextId + 1 })

/-- `SELECT * FROM todos WHERE id = ?` taking the first row, as in
`const [current] = await db.select().from(todos).where(eq(todos.id, id))`. -/
def findById (st : Store) (i : Nat) : Option Todo :=
  st.rows.find? (fun t => t.id == i)

/-- The validated input of `updateTodo` (`updateTodoSchema`): an id plus
optional `title` and `completed` fields. -/
structure UpdateInput where
  id : Nat
  title? : Option String
  completed? : Option Bool
  deriving Repr, DecidableEq

/-- The row transformation performed by `updateTodo` via
`db.update(todos).set(updateData)`: the supplied fields overwrite the fields of the row, and the `$onUpdate` hook of `updated_at` (`src/db/schema.ts`
lines 47-50) stamps the current time on every update statement. -/
def applyUpdate (inp : UpdateInput) (now : Nat) (t : Todo) : Todo :=
  { t with
    title := inp.title?.getD t.title
    completed := inp.completed?.getD t.completed
    updatedAt := now }

/-- `updateTodo` (`src/server/todo.ts` lines 114-137): the handler builds
`updateData` from exactly the supplied fields and runs
`db.update(todos).set(updateData).where(eq(todos.id, id)).returning()`,
returning the first returned row or `null` when no row matched.
When neither `title` nor `completed` is supplied, `updateData` is the empty
object and drizzle-orm raises the error `No values to set` (thrown by
`mapUpdateSet` before any storage access; the `$onUpdate` column hooks are
merged only later, in `buildUpdateSet`, so they do not rescue the empty
case). Otherwise the update statement runs and the `$onUpdate` hook stamps
`updated_at`. -/
def updateTodo (st : Store) (inp : UpdateInput) (now : Nat) :
    Except String (Option Todo × Store) :=
  if inp.title?.isNone && inp.completed?.isNone then
    Except.error "No values to set"
  else
    let rows' := st.rows.map fun t =>
      if t.id = inp.id then applyUpdate inp now t else t
    Except.ok (rows'.find? (fun t => t.id == inp.id), { st with rows := rows' })

/-- `toggleTodo` (`src/server/todo.ts` lines 147-167): read the current row;
if absent return `null`; otherwise
`UPDATE todos SET completed = ? WHERE id = ? RETURNING *` with the negated
flag (the `$onUpdate` hook stamps `updated_at := now`). -/
def toggleTodo (st : Store) (i : Nat) (now : Nat) : Option Todo × Store :=
  match findById st i with
  | none => (none, st)
  | some current =>
    let rows' := st.rows.map fun t =>
      if t.id = i then
        { t with completed := !current.completed, updatedAt := now }
      else t
    (rows'.find? (fun t => t.id == i), { st with rows := rows' })

/-- `deleteTodo` (`src/server/todo.ts` lines 177-186):
`DELETE FROM todos WHERE id = ?`, then return `{ success: true }`
unconditionally. -/
def deleteTodo (st : Store) (i : Nat) : Bool × Store :=
  (true, { st with rows := st.rows.filter (fun t => t.id ≠ i) })

/-- `deleteCompletedTodos` (`src/server/todo.ts` lines 193-200):
`DELETE FROM todos WHERE completed = true RETURNING *`, then return the
number of deleted rows. -/
def deleteCompletedTodos (st : Store) : Nat × Store :=
  ((st.rows.filter (fun t => t.completed)).length,
   { st with rows := st.rows.filter (fun t => !t.completed) })

/-- Well-formedness maintained by the primary key of the schema: every stored id
is below the AUTOINCREMENT counter, and ids are pairwise distinct. -/
def Store.wf (st : Store) : Prop :=
  (∀ t ∈ st.rows, t.id < st.nextId) ∧ (st.rows.map Todo.id).Nodup

instance (st : Store) : Decidable st.wf := by
  unfold Store.wf
  infer_instance

/-! ### Helper lemmas about `find?` and row-wise updates -/

/-- Updating (via `map`) exactly the rows whose id matches commutes with
finding the first row with that id, provided the update preserves ids. -/
theorem find?_map_update (rows : List Todo) (i : Nat) (g : Todo → Todo)
    (hg : ∀ t, (g t).id = t.id) :
    (rows.map fun t => if t.id = i then g t else t).find?
        (fun t => t.id == i) =
      (rows.find? (fun t => t.id == i)).map g := by
  induction rows with
  | nil => rfl
  | cons a as ih =>
    by_cases h : a.id = i
    · simp [List.find?_cons, h, hg]
    · simp only [List.map_cons, if_neg h]
      rw [List.find?_cons_of_neg, List.find?_cons_of_neg, ih]
      · simpa using h
      · simpa using h

/-- If no row has the given id, the row-wise update `map` leaves the list
unchanged. -/
theorem map_update_of_find?_none (rows : List Todo) (i : Nat) (g : Todo → Todo)
    (h : rows.find? (fun t => t.id == i) = none) :
    (rows.map fun t => if t.id = i then g t else t) = rows := by
  rw [List.find?_eq_none] at h
  calc (rows.map fun t => if t.id = i then g t else t)
      = rows.map id := by
        apply List.map_congr_left
        intro a ha
        have : ¬ a.id = i := by simpa using h a ha
        simp [this]
    _ = rows := List.map_id rows

/-- Filtering is idempotent. -/
theorem filter_idem {α : Type} (p : α → Bool) (l : List α) :
    (l.filter p).filter p = l.filter p := by
  apply List.filter_eq_self.mpr
  intro a ha
  exact (List.mem_filter.mp ha).2

/-- The two halves of a `filter` partition the length of a list. -/
theorem length_filter_partition {α : Type} (p : α → Bool) (l : List α) :
    (l.filter p).length + (l.filter (fun a => !p a)).length = l.length := by
  induction l with
  | nil => rfl
  | cons a as ih =>
    by_cases h : p a <;> simp [List.filter_cons, h] <;> omega

/-- Evaluation of `String.trim` on the concrete title used by witnesses
(the auxiliary scans recurse by well-founded recursion, so this does not
follow by `decide`). -/
theorem trim_B : "B".trim = "B" := by
  have h1 : "B".endPos = ⟨1⟩ := by decide
  have tw : Substring.takeWhileAux "B" ⟨1⟩ Char.isWhitespace ⟨0⟩ = ⟨0⟩ := by
    rw [Substring.takeWhileAux]
    norm_num
    intro h
    exact absurd h (by decide)
  have trw : Substring.takeRightWhileAux "B" ⟨0⟩ Char.isWhitespace ⟨1⟩ = ⟨1⟩ := by
    rw [Substring.takeRightWhileAux]
    norm_num
    intro h
    exact absurd h (by decide)
  show ("B".toSubstring.trim).toString = "B"
  rw [String.toSubstring, h1, Substring.trim, tw, trw]
  decide

theorem validTitle_B : validTitle "B" := by
  unfold validTitle
  rw [trim_B]
  exact ⟨by decide, by decide⟩

/-! ### Claims -/

/-- C1: the spec requires `create` to raise a ValidationError on a title that
is empty after trimming (or over-length) before touching storage, leaving the
row count unchanged. The `createTodo` input validator of the source is the
identity function, so the empty title is inserted: starting from the empty
store, `create({title: ""})` returns a Todo (not an error) and the row count
becomes 1. This contradicts the walkthrough documentation of the repository itself,
which gives `createTodo` the validator
`z.object({ title: z.string().min(1).max(200) }).parse`. -/
theorem createTodo_no_validation :
    (String.length (String.trim "") = 0) ∧
    (createTodo emptyStore "" 0).1 =
      { id := 1, title := "", completed := false,
        createdAt := 0, updatedAt := 0 } ∧
    (createTodo emptyStore "" 0).2.rows.length = 1 ∧
    emptyStore.rows.length = 0 := by
  refine ⟨?_, rfl, rfl, rfl⟩
  simp [String.trim, Substring.trim, Substring.trimLeft, Substring.trimRight,
    Substring.takeWhileAux, Substring.takeRightWhileAux, Substring.toString,
    String.toSubstring, String.extract]

/-- C5: toggling a valid id that is not present in the store returns the
absent signal `none` (never an error) and leaves the store — in particular
its row count — unchanged. -/
theorem toggleTodo_absent (st : Store) (i now : Nat)
    (hi : validId i) (h : findById st i = none) :
    toggleTodo st i now = (none, st) := by
  unfold toggleTodo
  rw [h]

/-- Witness for C5: toggling id 9999 on a one-row store returns `none` and
leaves the store unchanged. -/
theorem toggleTodo_absent_witness :
    validId 9999 ∧
    toggleTodo ⟨[⟨1, "A", false, 0, 0⟩], 2⟩ 9999 5 =
      (none, ⟨[⟨1, "A", false, 0, 0⟩], 2⟩) :=
  ⟨by decide, toggleTodo_absent _ 9999 5 (by decide) (by decide)⟩

/-- C8: `deleteTodo` is idempotent: both calls acknowledge success, the
second call leaves the store unchanged, and the call also succeeds (leaving
the store unchanged) when no row with the id exists. -/
theorem deleteTodo_idempotent (st : Store) (i : Nat) (hi : validId i) :
    (deleteTodo st i).1 = true ∧
    (deleteTodo (deleteTodo st i).2 i).1 = true ∧
    (deleteTodo (deleteTodo st i).2 i).2 = (deleteTodo st i).2 ∧
    (findById st i = none → (deleteTodo st i).2 = st) := by
  refine ⟨rfl, rfl, ?_, ?_⟩
  · unfold deleteTodo
    simp only [Store.mk.injEq]
    exact ⟨filter_idem _ _, trivial⟩
  · intro h
    unfold deleteTodo
    unfold findById at h
    rw [List.find?_eq_none] at h
    have : st.rows.filter (fun t => t.id ≠ i) = st.rows := by
      apply List.filter_eq_self.mpr
      intro a ha
      simpa using h a ha
    rw [this]

/-- Witness for C8: deleting id 1 twice from a one-row store succeeds both
times and the second call changes nothing; deleting the absent id 7 from the
empty store succeeds and changes nothing. -/
theorem deleteTodo_idempotent_witness :
    validId 1 ∧
    ((deleteTodo ⟨[⟨1, "A", false, 0, 0⟩], 2⟩ 1).1 = true ∧
     (deleteTodo (deleteTodo ⟨[⟨1, "A", false, 0, 0⟩], 2⟩ 1).2 1).1 = true ∧
     (deleteTodo (deleteTodo ⟨[⟨1, "A", false, 0, 0⟩], 2⟩ 1).2 1).2 =
       (deleteTodo ⟨[⟨1, "A", false, 0, 0⟩], 2⟩ 1).2 ∧
     (findById ⟨[⟨1, "A", false, 0, 0⟩], 2⟩ 1 = none →
       (deleteTodo ⟨[⟨1, "A", false, 0, 0⟩], 2⟩ 1).2 =
         ⟨[⟨1, "A", false, 0, 0⟩], 2⟩)) :=
  ⟨by decide, deleteTodo_idempotent ⟨[⟨1, "A", false, 0, 0⟩], 2⟩ 1 (by decide)⟩

/-- C2: creating a todo with a valid title returns a Todo with
`completed = false`, `createdAt = updatedAt`, and a fresh id: the id is the
AUTOINCREMENT counter, which (in a well-formed store, where every assigned
id is below the counter) differs from every id assigned before; the
resulting store is again well-formed, so ids stay unique. -/
theorem createTodo_valid_spec (st : Store) (title : String) (now : Nat)
    (hv : validTitle title) (hwf : st.wf) :
    (createTodo st title now).1.completed = false ∧
    (createTodo st title now).1.createdAt = (createTodo st title now).1.updatedAt ∧
    (createTodo st title now).1.id = st.nextId ∧
    (∀ t ∈ st.rows, t.id ≠ (createTodo st title now).1.id) ∧
    (createTodo st title now).2.wf := by
  obtain ⟨hlt, hnd⟩ := hwf
  refine ⟨rfl, rfl, rfl, ?_, ?_, ?_⟩
  · intro t ht
    exact Nat.ne_of_lt (hlt t ht)
  · intro t ht
    simp only [createTodo, List.mem_append, List.mem_singleton] at ht
    rcases ht with ht | ht
    · exact Nat.lt_succ_of_lt (hlt t ht)
    · subst ht
      exact Nat.lt_succ_self _
  · simp only [createTodo, List.map_append, List.map_cons, List.map_nil]
    rw [List.nodup_append]
    refine ⟨hnd, List.nodup_singleton _, ?_⟩
    intro a ha hb
    simp only [List.mem_singleton] at hb
    subst hb
    obtain ⟨t, ht, hid⟩ := List.mem_map.mp ha
    exact absurd hid (Nat.ne_of_lt (hlt t ht))

/-- Witness for C2: creating "B" in a well-formed one-row store. -/
theorem createTodo_valid_spec_witness :
    (Store.wf ⟨[⟨1, "A", false, 0, 0⟩], 2⟩) ∧
    ((createTodo ⟨[⟨1, "A", false, 0, 0⟩], 2⟩ "B" 3).1.completed = false ∧
     (createTodo ⟨[⟨1, "A", false, 0, 0⟩], 2⟩ "B" 3).1.createdAt =
       (createTodo ⟨[⟨1, "A", false, 0, 0⟩], 2⟩ "B" 3).1.updatedAt ∧
     (createTodo ⟨[⟨1, "A", false, 0, 0⟩], 2⟩ "B" 3).1.id = 2 ∧
     (∀ t ∈ (⟨[⟨1, "A", false, 0, 0⟩], 2⟩ : Store).rows,
        t.id ≠ (createTodo ⟨[⟨1, "A", false, 0, 0⟩], 2⟩ "B" 3).1.id) ∧
     (createTodo ⟨[⟨1, "A", false, 0, 0⟩], 2⟩ "B" 3).2.wf) :=
  ⟨by decide,
   createTodo_valid_spec ⟨[⟨1, "A", false, 0, 0⟩], 2⟩ "B" 3 validTitle_B
     (by decide)⟩

/-- C3: `deleteCompletedTodos` keeps exactly the rows with
`completed = false`, returns exactly the number of rows removed, and no
removed (completed) row appears in a subsequent `getTodos`. -/
theorem deleteCompletedTodos_spec (st : Store) :
    ((deleteCompletedTodos st).1 =
       st.rows.length - (deleteCompletedTodos st).2.rows.length) ∧
    (∀ t ∈ st.rows, t.completed = false → t ∈ (deleteCompletedTodos st).2.rows) ∧
    (∀ t ∈ (deleteCompletedTodos st).2.rows, t ∈ st.rows ∧ t.completed = false) ∧
    (∀ t ∈ st.rows, t.completed = true → t ∉ getTodos (deleteCompletedTodos st).2) := by
  refine ⟨?_, ?_, ?_, ?_⟩
  · show (st.rows.filter (fun t => t.completed)).length =
      st.rows.length - (st.rows.filter (fun t => !t.completed)).length
    have := length_filter_partition (fun t => t.completed) st.rows
    omega
  · intro t ht hc
    show t ∈ st.rows.filter (fun t => !t.completed)
    rw [List.mem_filter]
    exact ⟨ht, by simp [hc]⟩
  · intro t ht
    have := List.mem_filter.mp ht
    refine ⟨this.1, by simpa using this.2⟩
  · intro t _ hc hmem
    have : t ∈ (deleteCompletedTodos st).2.rows := by
      simpa [getTodos] using hmem
    have := (List.mem_filter.mp this).2
    simp [hc] at this

/-- C7: `getTodos` returns a permutation of the stored rows, sorted by
`createdAt` descending (newest first), and returns the empty list on the
empty store; being a total function it never fails. -/
theorem getTodos_spec (st : Store) :
    (getTodos st).Perm st.rows ∧
    List.Pairwise (fun a b => b.createdAt ≤ a.createdAt) (getTodos st) ∧
    (st.rows = [] → getTodos st = []) := by
  refine ⟨List.mergeSort_perm _ _, ?_, ?_⟩
  · have h := @List.sorted_mergeSort Todo
      (fun a b => decide (b.createdAt ≤ a.createdAt))
      (fun a b c hab hbc => by
        simp only [decide_eq_true_eq] at hab hbc ⊢
        omega)
      (fun a b => by
        simp only [Bool.or_eq_true, decide_eq_true_eq]
        omega)
      st.rows
    exact h.imp (fun hab => by simpa using hab)
  · intro h
    simp [getTodos, h]

/-- Helper: toggling an id whose row is present returns that row with the
completed flag negated and `updatedAt` stamped, the same row is found in the
resulting store, and the AUTOINCREMENT counter is untouched. -/
theorem toggleTodo_found (st : Store) (i now : Nat) (t : Todo)
    (h : findById st i = some t) :
    (toggleTodo st i now).1 =
      some { t with completed := !t.completed, updatedAt := now } ∧
    findById (toggleTodo st i now).2 i =
      some { t with completed := !t.completed, updatedAt := now } ∧
    (toggleTodo st i now).2.nextId = st.nextId := by
  have hfind : st.rows.find? (fun r => r.id == i) = some t := h
  have hmap := find?_map_update st.rows i
    (fun r => { r with completed := !t.completed, updatedAt := now })
    (fun r => rfl)
  unfold toggleTodo
  rw [h]
  refine ⟨?_, ?_, rfl⟩
  · show (st.rows.map fun r =>
        if r.id = i then { r with completed := !t.completed, updatedAt := now }
        else r).find? (fun r => r.id == i) = _
    rw [hmap, hfind]
    rfl
  · show (st.rows.map fun r =>
        if r.id = i then { r with completed := !t.completed, updatedAt := now }
        else r).find? (fun r => r.id == i) = _
    rw [hmap, hfind]
    rfl

/-- C4: toggling the same present id twice (with no interleaved operation)
restores the `completed` flag of the row to its original value, while `updatedAt`
is refreshed by both calls (to `now₁`, then to `now₂`); all other fields of
the row are untouched. -/
theorem toggleTodo_involution (st : Store) (i now₁ now₂ : Nat) (t : Todo)
    (h : findById st i = some t) :
    (toggleTodo st i now₁).1 =
      some { t with completed := !t.completed, updatedAt := now₁ } ∧
    (toggleTodo (toggleTodo st i now₁).2 i now₂).1 =
      some { t with completed := t.completed, updatedAt := now₂ } ∧
    findById (toggleTodo (toggleTodo st i now₁).2 i now₂).2 i =
      some { t with completed := t.completed, updatedAt := now₂ } := by
  obtain ⟨h1, h2, _⟩ := toggleTodo_found st i now₁ t h
  obtain ⟨h3, h4, _⟩ := toggleTodo_found (toggleTodo st i now₁).2 i now₂ _ h2
  refine ⟨h1, ?_, ?_⟩
  · rw [h3]
    simp [Bool.not_not]
  · rw [h4]
    simp [Bool.not_not]

/-- Witness for C4: a one-row store with the row completed, toggled twice. -/
theorem toggleTodo_involution_witness :
    findById ⟨[⟨1, "A", true, 0, 0⟩], 2⟩ 1 = some ⟨1, "A", true, 0, 0⟩ ∧
    ((toggleTodo ⟨[⟨1, "A", true, 0, 0⟩], 2⟩ 1 3).1 =
       some ⟨1, "A", false, 0, 3⟩ ∧
     (toggleTodo (toggleTodo ⟨[⟨1, "A", true, 0, 0⟩], 2⟩ 1 3).2 1 7).1 =
       some ⟨1, "A", true, 0, 7⟩ ∧
     findById (toggleTodo (toggleTodo ⟨[⟨1, "A", true, 0, 0⟩], 2⟩ 1 3).2 1 7).2 1 =
       some ⟨1, "A", true, 0, 7⟩) :=
  ⟨by decide, toggleTodo_involution ⟨[⟨1, "A", true, 0, 0⟩], 2⟩ 1 3 7
    ⟨1, "A", true, 0, 0⟩ (by decide)⟩

/-- C10: toggling a present id (in a well-formed store) changes only that
row — its `completed` flag is negated and its `updatedAt` stamped, with id,
title and `createdAt` kept — while every other row, the row count, and the
AUTOINCREMENT counter are unchanged. -/
theorem toggleTodo_frame (st : Store) (i now : Nat) (t : Todo)
    (hwf : st.wf) (h : findById st i = some t) :
    (toggleTodo st i now).1 =
      some { t with completed := !t.completed, updatedAt := now } ∧
    findById (toggleTodo st i now).2 i =
      some { t with completed := !t.completed, updatedAt := now } ∧
    (toggleTodo st i now).2.rows.length = st.rows.length ∧
    (toggleTodo st i now).2.nextId = st.nextId ∧
    (∀ r ∈ st.rows, r ≠ t → r.id ≠ i ∧ r ∈ (toggleTodo st i now).2.rows) ∧
    (∀ r ∈ (toggleTodo st i now).2.rows, r.id ≠ i → r ∈ st.rows) := by
  obtain ⟨h1, h2, h3⟩ := toggleTodo_found st i now t h
  have hti : t.id = i := by
    have := List.find?_some h
    simpa using this
  have htmem : t ∈ st.rows := List.mem_of_find?_eq_some h
  have hrows : (toggleTodo st i now).2.rows =
      st.rows.map fun r =>
        if r.id = i then { r with completed := !t.completed, updatedAt := now }
        else r := by
    unfold toggleTodo
    rw [h]
  refine ⟨h1, h2, ?_, h3, ?_, ?_⟩
  · rw [hrows, List.length_map]
  · intro r hr hne
    have hid : r.id ≠ i := by
      intro hri
      exact hne (List.inj_on_of_nodup_map hwf.2 hr htmem (by rw [hri, hti]))
    refine ⟨hid, ?_⟩
    rw [hrows]
    exact List.mem_map.mpr ⟨r, hr, by rw [if_neg hid]⟩
  · intro r hr hne
    rw [hrows] at hr
    obtain ⟨a, ha, hfa⟩ := List.mem_map.mp hr
    by_cases hai : a.id = i
    · rw [if_pos hai] at hfa
      exact absurd (by rw [← hfa]; exact hai) hne
    · rw [if_neg hai] at hfa
      rwa [← hfa]

/-- Witness for C10: a well-formed two-row store; toggling row 1 leaves
row 2 alone. -/
theorem toggleTodo_frame_witness :
    (Store.wf ⟨[⟨1, "A", false, 0, 0⟩, ⟨2, "B", true, 1, 1⟩], 3⟩) ∧
    findById ⟨[⟨1, "A", false, 0, 0⟩, ⟨2, "B", true, 1, 1⟩], 3⟩ 1 =
      some ⟨1, "A", false, 0, 0⟩ ∧
    ((toggleTodo ⟨[⟨1, "A", false, 0, 0⟩, ⟨2, "B", true, 1, 1⟩], 3⟩ 1 4).1 =
       some ⟨1, "A", true, 0, 4⟩ ∧
     findById (toggleTodo ⟨[⟨1, "A", false, 0, 0⟩, ⟨2, "B", true, 1, 1⟩], 3⟩ 1 4).2 1 =
       some ⟨1, "A", true, 0, 4⟩ ∧
     (toggleTodo ⟨[⟨1, "A", false, 0, 0⟩, ⟨2, "B", true, 1, 1⟩], 3⟩ 1 4).2.rows.length =
       (⟨[⟨1, "A", false, 0, 0⟩, ⟨2, "B", true, 1, 1⟩], 3⟩ : Store).rows.length ∧
     (toggleTodo ⟨[⟨1, "A", false, 0, 0⟩, ⟨2, "B", true, 1, 1⟩], 3⟩ 1 4).2.nextId = 3 ∧
     (∀ r ∈ (⟨[⟨1, "A", false, 0, 0⟩, ⟨2, "B", true, 1, 1⟩], 3⟩ : Store).rows,
        r ≠ ⟨1, "A", false, 0, 0⟩ → r.id ≠ 1 ∧
          r ∈ (toggleTodo ⟨[⟨1, "A", false, 0, 0⟩, ⟨2, "B", true, 1, 1⟩], 3⟩ 1 4).2.rows) ∧
     (∀ r ∈ (toggleTodo ⟨[⟨1, "A", false, 0, 0⟩, ⟨2, "B", true, 1, 1⟩], 3⟩ 1 4).2.rows,
        r.id ≠ 1 → r ∈ (⟨[⟨1, "A", false, 0, 0⟩, ⟨2, "B", true, 1, 1⟩], 3⟩ : Store).rows)) :=
  ⟨by decide, by decide,
   toggleTodo_frame ⟨[⟨1, "A", false, 0, 0⟩, ⟨2, "B", true, 1, 1⟩], 3⟩ 1 4
     ⟨1, "A", false, 0, 0⟩ (by decide) (by decide)⟩

/-- The constraint `updateTodoSchema` places on an update input:
`id` positive, and the title — when supplied — of length 1 to 200. -/
def validUpdateInput (inp : UpdateInput) : Prop :=
  0 < inp.id ∧ ∀ s ∈ inp.title?, 1 ≤ s.length ∧ s.length ≤ 200

/-- Counterexample to C6 as stated: the update input `{id: 1}` with neither
`title` nor `completed` supplied is accepted by `updateTodoSchema` (both
fields are optional) and targets a present row, yet `updateTodo` raises the
drizzle-orm error `No values to set` before touching storage instead of
refreshing the row and returning it. -/
theorem updateTodo_empty_throws :
    validUpdateInput ⟨1, none, none⟩ ∧
    findById ⟨[⟨1, "A", false, 0, 0⟩], 2⟩ 1 = some ⟨1, "A", false, 0, 0⟩ ∧
    updateTodo ⟨[⟨1, "A", false, 0, 0⟩], 2⟩ ⟨1, none, none⟩ 5 =
      Except.error "No values to set" :=
  ⟨⟨by decide, by intro s hs; simp at hs⟩, by decide, rfl⟩

/-- C6 (amended): for a valid update input that supplies at least one of
`title` and `completed`, `updateTodo` applies exactly the supplied fields to
the row with that id, stamps the `updatedAt` of that row (the `$onUpdate`
hook fires on the update statement), keeps `id` and `createdAt` and any
unsupplied field, leaves every other row and the AUTOINCREMENT counter
unchanged, and returns `null` with the whole store unchanged when no row has
that id; when neither field is supplied it raises the error
`No values to set` before touching storage. -/
theorem updateTodo_spec (st : Store) (inp : UpdateInput) (now : Nat)
    (hv : validUpdateInput inp) :
    (∀ t, findById st inp.id = some t →
      (inp.title?.isSome ∨ inp.completed?.isSome) →
      ∃ st', updateTodo st inp now = Except.ok (some
          { id := t.id, title := inp.title?.getD t.title,
            completed := inp.completed?.getD t.completed,
            createdAt := t.createdAt, updatedAt := now }, st') ∧
        (∀ r ∈ st.rows, r.id ≠ inp.id → r ∈ st'.rows) ∧
        st'.rows.length = st.rows.length ∧
        st'.nextId = st.nextId) ∧
    ((inp.title?.isSome ∨ inp.completed?.isSome) →
      findById st inp.id = none →
      updateTodo st inp now = Except.ok (none, st)) ∧
    (inp.title? = none → inp.completed? = none →
      updateTodo st inp now = Except.error "No values to set") := by
  refine ⟨?_, ?_, ?_⟩
  · intro t ht hsome
    have hguard : ¬ (inp.title?.isNone && inp.completed?.isNone) = true := by
      rcases hsome with hs | hs <;>
        simp [Option.isNone_iff_eq_none, Option.isSome_iff_ne_none] at hs ⊢ <;>
        simp [hs]
    have hfind : st.rows.find? (fun r => r.id == inp.id) = some t := ht
    have hmap := find?_map_update st.rows inp.id (applyUpdate inp now)
      (fun r => rfl)
    refine ⟨{ st with rows := st.rows.map fun r =>
        if r.id = inp.id then applyUpdate inp now r else r }, ?_, ?_, ?_, rfl⟩
    · unfold updateTodo
      rw [if_neg hguard]
      show Except.ok ((st.rows.map fun r =>
          if r.id = inp.id then applyUpdate inp now r else r).find?
            (fun r => r.id == inp.id),
        ({ st with rows := st.rows.map fun r =>
            if r.id = inp.id then applyUpdate inp now r else r } : Store)) = _
      rw [hmap, hfind]
      rfl
    · intro r hr hne
      show r ∈ st.rows.map fun r =>
        if r.id = inp.id then applyUpdate inp now r else r
      exact List.mem_map.mpr ⟨r, hr, by rw [if_neg hne]⟩
    · show (st.rows.map fun r =>
          if r.id = inp.id then applyUpdate inp now r else r).length =
        st.rows.length
      rw [List.length_map]
  · intro hsome hnone
    have hguard : ¬ (inp.title?.isNone && inp.completed?.isNone) = true := by
      rcases hsome with hs | hs <;>
        simp [Option.isNone_iff_eq_none, Option.isSome_iff_ne_none] at hs ⊢ <;>
        simp [hs]
    have hfind : st.rows.find? (fun r => r.id == inp.id) = none := hnone
    have hrows := map_update_of_find?_none st.rows inp.id
      (applyUpdate inp now) hfind
    unfold updateTodo
    rw [if_neg hguard]
    show Except.ok ((st.rows.map fun r =>
        if r.id = inp.id then applyUpdate inp now r else r).find?
          (fun r => r.id == inp.id),
      ({ st with rows := st.rows.map fun r =>
          if r.id = inp.id then applyUpdate inp now r else r } : Store)) = _
    rw [hrows, hfind]
  · intro h1 h2
    unfold updateTodo
    rw [if_pos (by simp [h1, h2])]

/-- Witness for C6 (amended): updating row 1 of a one-row store, supplying a
new title and a completed flag. -/
theorem updateTodo_spec_witness :
    validUpdateInput ⟨1, some "B", some true⟩ ∧
    ((∀ t, findById ⟨[⟨1, "A", false, 0, 0⟩], 2⟩ 1 = some t →
      ((some "B").isSome ∨ (some true).isSome) →
      ∃ st', updateTodo ⟨[⟨1, "A", false, 0, 0⟩], 2⟩
            ⟨1, some "B", some true⟩ 5 = Except.ok (some
          { id := t.id, title := (some "B").getD t.title,
            completed := (some true).getD t.completed,
            createdAt := t.createdAt, updatedAt := 5 }, st') ∧
        (∀ r ∈ (⟨[⟨1, "A", false, 0, 0⟩], 2⟩ : Store).rows, r.id ≠ 1 →
          r ∈ st'.rows) ∧
        st'.rows.length = (⟨[⟨1, "A", false, 0, 0⟩], 2⟩ : Store).rows.length ∧
        st'.nextId = 2) ∧
     (((some "B").isSome ∨ (some true).isSome) →
       findById ⟨[⟨1, "A", false, 0, 0⟩], 2⟩ 1 = none →
       updateTodo ⟨[⟨1, "A", false, 0, 0⟩], 2⟩ ⟨1, some "B", some true⟩ 5 =
         Except.ok (none, ⟨[⟨1, "A", false, 0, 0⟩], 2⟩)) ∧
     ((some "B" : Option String) = none → (some true : Option Bool) = none →
       updateTodo ⟨[⟨1, "A", false, 0, 0⟩], 2⟩ ⟨1, some "B", some true⟩ 5 =
         Except.error "No values to set")) :=
  ⟨⟨by decide, by intro s hs; simp at hs; subst hs; exact ⟨by decide, by decide⟩⟩,
   updateTodo_spec ⟨[⟨1, "A", false, 0, 0⟩], 2⟩ ⟨1, some "B", some true⟩ 5
     ⟨by decide, by intro s hs; simp at hs; subst hs; exact ⟨by decide, by decide⟩⟩⟩

/-- The states reachable from the freshly created database by the five
server functions, paired with a lower bound on the wall clock: each
timestamp-stamping operation runs at a time `now` no earlier than every
earlier operation (the wall clock is monotone). -/
inductive Reach : Store → Nat → Prop
  | init : Reach emptyStore 0
  | create (st : Store) (c now : Nat) (title : String) :
      Reach st c → c ≤ now → Reach (createTodo st title now).2 now
  | toggle (st : Store) (c now i : Nat) :
      Reach st c → c ≤ now → Reach (toggleTodo st i now).2 now
  | update (st : Store) (c now : Nat) (inp : UpdateInput)
      (out : Option Todo × Store) :
      Reach st c → c ≤ now → updateTodo st inp now = Except.ok out →
      Reach out.2 now
  | deleteOne (st : Store) (c i : Nat) :
      Reach st c → Reach (deleteTodo st i).2 c
  | deleteCompleted (st : Store) (c : Nat) :
      Reach st c → Reach (deleteCompletedTodos st).2 c

/-- Helper: along any reachable state, every row satisfies
`createdAt ≤ updatedAt` and its `updatedAt` is bounded by the clock. -/
theorem reach_timestamps (st : Store) (c : Nat) (h : Reach st c) :
    ∀ t ∈ st.rows, t.createdAt ≤ t.updatedAt ∧ t.updatedAt ≤ c := by
  induction h with
  | init =>
    intro t ht
    cases ht
  | create st c now title hr hle ih =>
    intro t ht
    simp only [createTodo, List.mem_append, List.mem_singleton] at ht
    rcases ht with ht | ht
    · obtain ⟨h1, h2⟩ := ih t ht
      exact ⟨h1, h2.trans hle⟩
    · subst ht
      exact ⟨Nat.le_refl _, Nat.le_refl _⟩
  | toggle st c now i hr hle ih =>
    intro t ht
    rcases hfind : findById st i with _ | cur
    · unfold toggleTodo at ht
      rw [hfind] at ht
      obtain ⟨h1, h2⟩ := ih t ht
      exact ⟨h1, h2.trans hle⟩
    · unfold toggleTodo at ht
      rw [hfind] at ht
      have ht' : t ∈ st.rows.map fun r =>
          if r.id = i then { r with completed := !cur.completed, updatedAt := now }
          else r := ht
      obtain ⟨a, ha, hfa⟩ := List.mem_map.mp ht'
      obtain ⟨h1, h2⟩ := ih a ha
      by_cases hai : a.id = i
      · rw [if_pos hai] at hfa
        subst hfa
        exact ⟨h1.trans (h2.trans hle), Nat.le_refl _⟩
      · rw [if_neg hai] at hfa
        subst hfa
        exact ⟨h1, h2.trans hle⟩
  | update st c now inp out hr hle heq ih =>
    intro t ht
    unfold updateTodo at heq
    by_cases hguard : (inp.title?.isNone && inp.completed?.isNone) = true
    case pos =>
      rw [if_pos hguard] at heq
      cases heq
    case neg =>
    rw [if_neg hguard] at heq
    injection heq with heq
    subst heq
    have ht' : t ∈ st.rows.map fun r =>
        if r.id = inp.id then applyUpdate inp now r else r := ht
    obtain ⟨a, ha, hfa⟩ := List.mem_map.mp ht'
    obtain ⟨h1, h2⟩ := ih a ha
    by_cases hai : a.id = inp.id
    · rw [if_pos hai] at hfa
      subst hfa
      exact ⟨h1.trans (h2.trans hle), Nat.le_refl _⟩
    · rw [if_neg hai] at hfa
      subst hfa
      exact ⟨h1, h2.trans hle⟩
  | deleteOne st c i hr ih =>
    intro t ht
    exact ih t (List.mem_of_mem_filter ht)
  | deleteCompleted st c hr ih =>
    intro t ht
    exact ih t (List.mem_of_mem_filter ht)

/-- C9: starting from the empty store, after any sequence of the five
operations (with a monotone wall clock) every stored row satisfies
`updatedAt ≥ createdAt`. -/
theorem updatedAt_ge_createdAt (st : Store) (c : Nat) (h : Reach st c) :
    ∀ t ∈ st.rows, t.createdAt ≤ t.updatedAt :=
  fun t ht => (reach_timestamps st c h t ht).1

/-- Witness for C9: the store reached by a create at time 2 followed by a
toggle at time 5. -/
theorem updatedAt_ge_createdAt_witness :
    Reach (toggleTodo (createTodo emptyStore "A" 2).2 1 5).2 5 ∧
    ∀ t ∈ (toggleTodo (createTodo emptyStore "A" 2).2 1 5).2.rows,
      t.createdAt ≤ t.updatedAt := by
  have hr : Reach (toggleTodo (createTodo emptyStore "A" 2).2 1 5).2 5 :=
    Reach.toggle _ 2 5 1 (Reach.create _ 0 2 "A" Reach.init (by omega)) (by omega)
  exact ⟨hr, updatedAt_ge_createdAt _ 5 hr⟩

end TodoApp
